import Mathlib

/-!
Verification of the EventPulse backend (Go) against its natural-language
specification.  The Go source is shallowly embedded: SQL rows become
structures, repository transactions become pure functions on an explicit
database value, the WebSocket hub fan-out becomes a recursive function on
the per-event client list, and the concurrent claim protocol
(`SELECT ... FOR UPDATE SKIP LOCKED`) becomes a small-step transition
relation over an explicit row-lock state.
-/

namespace EventPulse

/-- Incident states, mirroring the `estado` CHECK constraint of table
`incidencias` (`pendiente`, `en_atencion`, `resuelta`). -/
inductive EstadoIncidencia where
  | pendiente
  | en_atencion
  | resuelta
deriving DecidableEq, Repr

/-- The SQL text of each incident state, as stored in the database and as
interpolated into the conflict message of `AtenderConLock`. -/
def estadoStr : EstadoIncidencia → String
  | .pendiente => "pendiente"
  | .en_atencion => "en_atencion"
  | .resuelta => "resuelta"

/-- Worker roles (`rol` CHECK constraint of table `usuarios`). -/
inductive Rol where
  | admin
  | aseo
  | guardia
  | medico
  | logistica
  | supervisor
deriving DecidableEq, Repr

/-- A row of table `usuarios`, restricted to the columns the claim
protocol reads (`id`, `nombre`). -/
structure UsuarioRow where
  id : String
  nombre : String
deriving DecidableEq, Repr

/-- A row of table `incidencias`, restricted to the columns the claim and
resolve transactions read and write (`id`, `estado`, and the assignee
column, called `atendida_por` in the claim-protocol schema and
`asignada_a` in the slug-keyed schema; both map to the same concept). -/
structure Incidencia where
  id : String
  estado : EstadoIncidencia
  atendidaPor : Option String
deriving DecidableEq, Repr

/-- A row of the append-only table `incidencias_historial`. -/
structure HistorialRow where
  incidenciaId : String
  estadoAnterior : EstadoIncidencia
  estadoNuevo : EstadoIncidencia
  usuarioId : String
deriving DecidableEq, Repr

/-- The slice of the durable store touched by the incident operations. -/
structure DB where
  incidencias : List Incidencia
  historial : List HistorialRow
  usuarios : List UsuarioRow
deriving DecidableEq, Repr

/-- `SELECT ... FROM incidencias WHERE id = $1` (first match on primary key). -/
def buscarIncidencia (db : DB) (incID : String) : Option Incidencia :=
  db.incidencias.find? (fun i => i.id == incID)

/-- `SELECT nombre FROM usuarios WHERE id = $1`. -/
def buscarUsuario (db : DB) (uid : String) : Option UsuarioRow :=
  db.usuarios.find? (fun u => u.id == uid)

/-- `UPDATE incidencias SET ... WHERE id = $1`: rewrite the matching row,
leaving every other row unchanged. -/
def actualizarIncidencia (lista : List Incidencia) (incID : String)
    (g : Incidencia → Incidencia) : List Incidencia :=
  lista.map (fun i => if i.id == incID then g i else i)

/-- The name shown to a losing claimer when the row is locked by a
concurrent transaction: the winner's display name read without a lock via
`LEFT JOIN usuarios u ON u.id = i.atendida_por` (aliased `zona_nombre` in
the Go code), `"otro usuario"` when `atendida_por` is still NULL, and
`"desconocido"` when that fallback read itself fails. -/
def nombreGanador (db : DB) (inc : Incidencia) : String :=
  match inc.atendidaPor with
  | some uid =>
    match buscarUsuario db uid with
    | some u => u.nombre
    | none => "desconocido"
  | none => "otro usuario"

/-- `IncidenciaRepository.AtenderConLock`: the claim transaction.
`bloqueada` models whether the `SELECT ... FOR UPDATE SKIP LOCKED` found
the row locked by a concurrent transaction (in which case it returns no
row).  Branches, in source order: no row (locked) → conflict naming the
winner; row with `estado ≠ 'pendiente'` → conflict naming the state; row
pending → update state and assignee, append one history row, commit.
Errors carry the literal Go error string `incidencia_conflicto:<detalle>`. -/
def atenderConLock (db : DB) (incID usuarioID : String) (bloqueada : Bool) :
    Except String Incidencia × DB :=
  match buscarIncidencia db incID with
  | none => (.error ("incidencia_conflicto:" ++ "desconocido"), db)
  | some inc =>
    if bloqueada then
      (.error ("incidencia_conflicto:" ++ nombreGanador db inc), db)
    else if inc.estado ≠ .pendiente then
      (.error ("incidencia_conflicto:" ++ "ya está en estado " ++ estadoStr inc.estado), db)
    else
      let inc2 : Incidencia := { inc with estado := .en_atencion, atendidaPor := some usuarioID }
      (.ok inc2,
       { db with
          incidencias := actualizarIncidencia db.incidencias incID
            (fun i => { i with estado := .en_atencion, atendidaPor := some usuarioID }),
          historial := db.historial ++ [⟨incID, .pendiente, .en_atencion, usuarioID⟩] })

/-- `IncidenciaRepository.Resolver`: the resolve transaction.  The SQL is
`UPDATE incidencias SET estado = 'resuelta', atendida_por = $1 WHERE id =
$2 AND (atendida_por = $1 OR $3 = 'supervisor' OR $3 = 'admin')`, and the
Go call site binds `$1 = usuarioID`, `$2 = incID`, `$3 = usuarioID`: the
third parameter is the caller's user id, not their role.  On success the
transaction appends a history row hard-coding `en_atencion → resuelta`. -/
def resolver (db : DB) (incID usuarioID : String) : Except String Incidencia × DB :=
  match buscarIncidencia db incID with
  | none => (.error "no tienes permiso para resolver esta incidencia", db)
  | some inc =>
    if inc.atendidaPor == some usuarioID || usuarioID == "supervisor" || usuarioID == "admin" then
      let inc2 : Incidencia := { inc with estado := .resuelta, atendidaPor := some usuarioID }
      (.ok inc2,
       { db with
          incidencias := actualizarIncidencia db.incidencias incID
            (fun i => { i with estado := .resuelta, atendidaPor := some usuarioID }),
          historial := db.historial ++ [⟨incID, .en_atencion, .resuelta, usuarioID⟩] })
    else
      (.error "no tienes permiso para resolver esta incidencia", db)

/-- The body of `PATCH /api/v1/incidencias/:id` (`EditarIncidenciaRequest`):
optional new state and optional new assignee. -/
structure EditarIncidenciaRequest where
  estado : Option EstadoIncidencia
  asignadaA : Option String
deriving DecidableEq, Repr

/-- `IncidenciaRepo.Editar`: reads the current state, then — with no
validation of the transition — writes the requested state (appending a
history row with the state it just read) and/or the requested assignee,
and finally re-reads the row. -/
def editarIncidencia (db : DB) (incID : String) (req : EditarIncidenciaRequest)
    (usuarioID : String) : Option Incidencia × DB :=
  match buscarIncidencia db incID with
  | none => (none, db)
  | some inc =>
    let db1 : DB :=
      match req.estado with
      | some e =>
        { db with
            incidencias := actualizarIncidencia db.incidencias incID
              (fun i => { i with estado := e }),
            historial := db.historial ++ [⟨incID, inc.estado, e, usuarioID⟩] }
      | none => db
    let db2 : DB :=
      match req.asignadaA with
      | some a =>
        { db1 with
            incidencias := actualizarIncidencia db1.incidencias incID
              (fun i => { i with atendidaPor := some a }) }
      | none => db1
    (buscarIncidencia db2 incID, db2)

/-- Rewriting one row by primary key commutes with looking it up: if the
lookup found `inc`, after the update it finds `g inc`, provided `g` keeps
the primary key. -/
theorem buscar_actualizar (lista : List Incidencia) (incID : String)
    (g : Incidencia → Incidencia) (hg : ∀ i, (g i).id = i.id) (inc : Incidencia)
    (h : lista.find? (fun i => i.id == incID) = some inc) :
    (actualizarIncidencia lista incID g).find? (fun i => i.id == incID) = some (g inc) := by
  induction lista with
  | nil => exact absurd h (by simp)
  | cons cab resto ih =>
    by_cases hc : cab.id = incID
    · have h1 : (cab :: resto).find? (fun i => i.id == incID) = some cab :=
        List.find?_cons_of_pos _ (by simp [hc])
      rw [h1] at h
      cases h
      have h2 : actualizarIncidencia (inc :: resto) incID g
          = g inc :: actualizarIncidencia resto incID g := by
        simp [actualizarIncidencia, hc]
      rw [h2]
      exact List.find?_cons_of_pos _ (by simp [hg, hc])
    · have h1 : (cab :: resto).find? (fun i => i.id == incID)
          = resto.find? (fun i => i.id == incID) :=
        List.find?_cons_of_neg _ (by simp [hc])
      rw [h1] at h
      have h2 : actualizarIncidencia (cab :: resto) incID g
          = cab :: actualizarIncidencia resto incID g := by
        simp [actualizarIncidencia, hc]
      rw [h2]
      have h3 : (cab :: actualizarIncidencia resto incID g).find? (fun i => i.id == incID)
          = (actualizarIncidencia resto incID g).find? (fun i => i.id == incID) :=
        List.find?_cons_of_neg _ (by simp [hc])
      rw [h3]
      exact ih h

/-- Reduction of the successful claim branch: on a visible pending row the
transaction returns the updated incident and rewrites the store. -/
theorem atenderConLock_pendiente (db : DB) (incID uid : String) (inc : Incidencia)
    (hfind : buscarIncidencia db incID = some inc)
    (hpend : inc.estado = .pendiente) :
    atenderConLock db incID uid false =
      (.ok { inc with estado := .en_atencion, atendidaPor := some uid },
       { db with
          incidencias := actualizarIncidencia db.incidencias incID
            (fun i => { i with estado := .en_atencion, atendidaPor := some uid }),
          historial := db.historial ++ [⟨incID, .pendiente, .en_atencion, uid⟩] }) := by
  unfold atenderConLock
  rw [hfind]
  simp [hpend]

/-- Claim C2: a claim on a pending incident succeeds — it moves the
incident to `en_atencion` with the actor as assignee, appends exactly one
history row `pendiente → en_atencion` with that actor within the same
transaction, leaves the user table alone, and returns the updated row. -/
theorem claim_pendiente_exito (db : DB) (incID uid : String) (inc : Incidencia)
    (hfind : buscarIncidencia db incID = some inc)
    (hpend : inc.estado = .pendiente) :
    (atenderConLock db incID uid false).1
        = .ok { inc with estado := .en_atencion, atendidaPor := some uid }
    ∧ buscarIncidencia (atenderConLock db incID uid false).2 incID
        = some { inc with estado := .en_atencion, atendidaPor := some uid }
    ∧ (atenderConLock db incID uid false).2.historial
        = db.historial ++ [⟨incID, .pendiente, .en_atencion, uid⟩]
    ∧ (atenderConLock db incID uid false).2.usuarios = db.usuarios := by
  rw [atenderConLock_pendiente db incID uid inc hfind hpend]
  refine ⟨rfl, ?_, rfl, rfl⟩
  exact buscar_actualizar db.incidencias incID
    (fun i => { i with estado := .en_atencion, atendidaPor := some uid }) (fun i => rfl) inc hfind

/-- Concrete store for exercising the successful claim path. -/
def dbClaimPend : DB := ⟨[⟨"I1", .pendiente, none⟩], [], [⟨"w1", "Walter"⟩]⟩

/-- Witness for C2 at a concrete pending incident. -/
theorem claim_pendiente_exito_witness :
    (atenderConLock dbClaimPend "I1" "w1" false).1 = .ok ⟨"I1", .en_atencion, some "w1"⟩
    ∧ buscarIncidencia (atenderConLock dbClaimPend "I1" "w1" false).2 "I1"
        = some ⟨"I1", .en_atencion, some "w1"⟩
    ∧ (atenderConLock dbClaimPend "I1" "w1" false).2.historial
        = dbClaimPend.historial ++ [⟨"I1", .pendiente, .en_atencion, "w1"⟩]
    ∧ (atenderConLock dbClaimPend "I1" "w1" false).2.usuarios = dbClaimPend.usuarios :=
  claim_pendiente_exito dbClaimPend "I1" "w1" ⟨"I1", .pendiente, none⟩ rfl rfl

/-- Claim C4: a claim on a visible incident that is no longer pending
fails with a conflict naming the current state, and the transaction rolls
back — the store (incident rows and history alike) is returned unchanged. -/
theorem claim_no_pendiente_conflicto (db : DB) (incID uid : String) (inc : Incidencia)
    (hfind : buscarIncidencia db incID = some inc)
    (hnp : inc.estado ≠ .pendiente) :
    atenderConLock db incID uid false =
      (.error ("incidencia_conflicto:" ++ "ya está en estado " ++ estadoStr inc.estado), db) := by
  unfold atenderConLock
  rw [hfind]
  simp [hnp]

/-- Concrete store for the already-claimed conflict path. -/
def dbClaimTarde : DB := ⟨[⟨"I1", .en_atencion, some "w1"⟩], [], [⟨"w1", "Walter"⟩]⟩

/-- Witness for C4 at a concrete already-claimed incident. -/
theorem claim_no_pendiente_conflicto_witness :
    atenderConLock dbClaimTarde "I1" "w2" false =
      (.error ("incidencia_conflicto:" ++ "ya está en estado " ++ estadoStr .en_atencion),
       dbClaimTarde) :=
  claim_no_pendiente_conflicto dbClaimTarde "I1" "w2" ⟨"I1", .en_atencion, some "w1"⟩ rfl
    (by decide)

instance {ε α : Type} [DecidableEq ε] [DecidableEq α] : DecidableEq (Except ε α) := fun x y =>
  match x, y with
  | .ok a, .ok b =>
    if h : a = b then .isTrue (by rw [h]) else .isFalse (fun hc => h (Except.ok.inj hc))
  | .error a, .error b =>
    if h : a = b then .isTrue (by rw [h]) else .isFalse (fun hc => h (Except.error.inj hc))
  | .ok _, .error _ => .isFalse (fun hc => Except.noConfusion hc)
  | .error _, .ok _ => .isFalse (fun hc => Except.noConfusion hc)

/-- `ErrorResponse` (`{error, codigo?}`); `codigo = 0` stands for the
omitted field. -/
structure ErrorResponse where
  error : String
  codigo : Nat
deriving DecidableEq, Repr

/-- `ConflictoPayload`: the body of the `incidencia_conflicto` envelope. -/
structure ConflictoPayload where
  incidenciaID : String
  mensaje : String
  atendidaPor : String
deriving DecidableEq, Repr

/-- The `payload` field of a WebSocket envelope, for the kinds the
incident handlers publish. -/
inductive PayloadWS where
  | pIncidencia (inc : Incidencia)
  | pConflicto (c : ConflictoPayload)
deriving DecidableEq, Repr

/-- An envelope published on the broker: destination channel plus the
serialized `EventoWS` fields (`tipo`, `evento_id`, `payload`). -/
structure EnvioWS where
  canal : String
  tipo : String
  eventoID : String
  payload : PayloadWS
deriving DecidableEq, Repr

/-- The HTTP response a handler writes: status code plus either an error
body or an incident body. -/
structure RespuestaHTTP where
  status : Nat
  cuerpoError : Option ErrorResponse
  cuerpoIncidencia : Option Incidencia
deriving DecidableEq, Repr

/-- `strings.SplitN(s, ":", 2)` on the character list: split at the first
colon, returning the part before it and everything after it. -/
def splitPrimero : List Char → Option (List Char × List Char)
  | [] => none
  | c :: resto =>
    if c = ':' then some ([], resto)
    else
      match splitPrimero resto with
      | none => none
      | some (a, b) => some (c :: a, b)

/-- `IncidenciaHandler.Atender`: runs the claim transaction; on an error
carrying the `incidencia_conflicto:` marker it publishes a rollback
envelope to the caller's user channel and answers 409 with
`Conflicto: ya fue tomada por <quien>`; on success it publishes
`incidencia_actualizada` to the event channel and answers 200; any other
error answers 500.  `manejarErrorAtender` is the error arm of
`IncidenciaHandler.Atender`. -/
def manejarErrorAtender (e : String) (incID usuarioID eventoID : String) (db2 : DB) :
    RespuestaHTTP × List EnvioWS × DB :=
  match splitPrimero e.data with
  | some (marca, resto) =>
    if marca = "incidencia_conflicto".data then
      (⟨409, some ⟨"Conflicto: ya fue tomada por " ++ String.mk resto, 409⟩, none⟩,
       [⟨"eventpulse:usuario:" ++ usuarioID, "incidencia_conflicto", eventoID,
          .pConflicto ⟨incID, "La incidencia ya fue tomada por " ++ String.mk resto,
            String.mk resto⟩⟩], db2)
    else (⟨500, some ⟨e, 0⟩, none⟩, [], db2)
  | none => (⟨500, some ⟨e, 0⟩, none⟩, [], db2)

def atenderHandler (db : DB) (incID usuarioID eventoID : String) (bloqueada : Bool) :
    RespuestaHTTP × List EnvioWS × DB :=
  match atenderConLock db incID usuarioID bloqueada with
  | (.ok inc, db2) =>
    (⟨200, none, some inc⟩,
     [⟨"eventpulse:" ++ eventoID, "incidencia_actualizada", eventoID, .pIncidencia inc⟩], db2)
  | (.error e, db2) => manejarErrorAtender e incID usuarioID eventoID db2

/-- `IncidenciaHandler.Resolver`: runs the resolve transaction; every
repository error is answered with 403; success publishes
`incidencia_actualizada` and answers 200. -/
def resolverHandler (db : DB) (incID usuarioID eventoID : String) :
    RespuestaHTTP × List EnvioWS × DB :=
  match resolver db incID usuarioID with
  | (.ok inc, db2) =>
    (⟨200, none, some inc⟩,
     [⟨"eventpulse:" ++ eventoID, "incidencia_actualizada", eventoID, .pIncidencia inc⟩], db2)
  | (.error e, db2) => (⟨403, some ⟨e, 0⟩, none⟩, [], db2)

/-- Store for the C3 scenario of the spec: incident I2 `en_atencion`,
assigned to worker w3; s1 is a supervisor who is not the assignee. -/
def dbResolver : DB :=
  ⟨[⟨"I2", .en_atencion, some "w3"⟩], [], [⟨"w3", "Walter"⟩, ⟨"s1", "Sofia"⟩]⟩

/-- Claim C3 names the behaviour the code was meant to have, but the call
site binds the caller's user id — not their role — to the `$3` parameter
that the SQL compares against the literals `'supervisor'` and `'admin'`
(the repository `Resolver` does not even receive the role).  Hence the
supervisor s1, not being the assignee, is denied: the repository errors,
the store is untouched, and the handler answers 403 — against the spec's
admin-override-resolve scenario. -/
theorem resolver_rol_ignorado :
    (resolver dbResolver "I2" "s1").1
        = .error "no tienes permiso para resolver esta incidencia"
    ∧ (resolver dbResolver "I2" "s1").2 = dbResolver
    ∧ (resolverHandler dbResolver "I2" "s1" "E1").1.status = 403
    ∧ buscarIncidencia dbResolver "I2" = some ⟨"I2", .en_atencion, some "w3"⟩ := by
  decide

/-- The allowed incident transitions of the specification's state
machine: `pendiente → en_atencion`, `en_atencion → resuelta`,
`pendiente → resuelta`. -/
def transicionValida : EstadoIncidencia → EstadoIncidencia → Bool
  | .pendiente, .en_atencion => true
  | .en_atencion, .resuelta => true
  | .pendiente, .resuelta => true
  | _, _ => false

/-- Store holding a resolved incident, for the C5 counterexample. -/
def dbResuelta : DB := ⟨[⟨"I1", .resuelta, some "w1"⟩], [], []⟩

/-- Counterexample to claim C5: `Editar` applies any requested state with
no validation, so a PATCH with `estado = pendiente` moves a resolved
incident back to pending — a transition outside the spec's state machine,
contradicting both the allowed-transition list and the terminality of
`resuelta`. -/
theorem editar_reabre_resuelta :
    buscarIncidencia dbResuelta "I1" = some ⟨"I1", .resuelta, some "w1"⟩
    ∧ (editarIncidencia dbResuelta "I1" ⟨some .pendiente, none⟩ "a1").1
        = some ⟨"I1", .pendiente, some "w1"⟩
    ∧ transicionValida .resuelta .pendiente = false := by
  decide

/-- Claim C5 as amended: the claim transaction only ever performs
`pendiente → en_atencion` and records exactly that transition in history;
the resolve transaction always writes `resuelta` but hard-codes
`en_atencion → resuelta` in its history row regardless of the actual
prior state; and the edit transaction writes whatever state the request
carries — unconstrained by the state machine, so `resuelta` is not
terminal — while its history row records the state actually read before
the update. -/
theorem estado_maquina_amended (db : DB) (incID uid : String) :
    (∀ inc2, (atenderConLock db incID uid false).1 = .ok inc2 →
      ∃ inc, buscarIncidencia db incID = some inc
        ∧ inc.estado = .pendiente
        ∧ inc2.estado = .en_atencion
        ∧ transicionValida inc.estado inc2.estado = true
        ∧ (atenderConLock db incID uid false).2.historial
            = db.historial ++ [⟨incID, .pendiente, .en_atencion, uid⟩])
    ∧ (∀ inc2, (resolver db incID uid).1 = .ok inc2 →
        inc2.estado = .resuelta
        ∧ (resolver db incID uid).2.historial
            = db.historial ++ [⟨incID, .en_atencion, .resuelta, uid⟩])
    ∧ (∀ (e : EstadoIncidencia) inc, buscarIncidencia db incID = some inc →
        (editarIncidencia db incID ⟨some e, none⟩ uid).1 = some { inc with estado := e }
        ∧ (editarIncidencia db incID ⟨some e, none⟩ uid).2.historial
            = db.historial ++ [⟨incID, inc.estado, e, uid⟩]) := by
  refine ⟨?_, ?_, ?_⟩
  · intro inc2 hok
    rcases hfind : buscarIncidencia db incID with _ | inc
    · rw [show atenderConLock db incID uid false
          = (.error ("incidencia_conflicto:" ++ "desconocido"), db) from by
        unfold atenderConLock; rw [hfind]] at hok
      exact absurd hok (by simp)
    · by_cases hpend : inc.estado = .pendiente
      · rw [atenderConLock_pendiente db incID uid inc hfind hpend] at hok ⊢
        have hi2 : inc2 = { inc with estado := .en_atencion, atendidaPor := some uid } := by
          simpa using hok.symm
        subst hi2
        exact ⟨inc, rfl, hpend, rfl, by simp [hpend, transicionValida], rfl⟩
      · rw [claim_no_pendiente_conflicto db incID uid inc hfind hpend] at hok
        exact absurd hok (by simp)
  · intro inc2 hok
    rcases hfind : buscarIncidencia db incID with _ | inc
    · rw [show resolver db incID uid
          = (.error "no tienes permiso para resolver esta incidencia", db) from by
        unfold resolver; rw [hfind]] at hok
      exact absurd hok (by simp)
    · by_cases hperm : (inc.atendidaPor == some uid || uid == "supervisor" || uid == "admin")
        = true
      · rw [show resolver db incID uid
            = (.ok { inc with estado := .resuelta, atendidaPor := some uid },
               { db with
                  incidencias := actualizarIncidencia db.incidencias incID
                    (fun i => { i with estado := .resuelta, atendidaPor := some uid }),
                  historial := db.historial ++ [⟨incID, .en_atencion, .resuelta, uid⟩] })
            from by unfold resolver; rw [hfind]; simp [hperm]] at hok ⊢
        have hi2 : inc2 = { inc with estado := .resuelta, atendidaPor := some uid } := by
          simpa using hok.symm
        subst hi2
        exact ⟨rfl, rfl⟩
      · rw [show resolver db incID uid
            = (.error "no tienes permiso para resolver esta incidencia", db) from by
          unfold resolver; rw [hfind]; simp [hperm]] at hok
        exact absurd hok (by simp)
  · intro e inc hfind
    have hred : editarIncidencia db incID ⟨some e, none⟩ uid
        = (buscarIncidencia
            { db with
                incidencias := actualizarIncidencia db.incidencias incID
                  (fun i => { i with estado := e }),
                historial := db.historial ++ [⟨incID, inc.estado, e, uid⟩] } incID,
           { db with
              incidencias := actualizarIncidencia db.incidencias incID
                (fun i => { i with estado := e }),
              historial := db.historial ++ [⟨incID, inc.estado, e, uid⟩] }) := by
      unfold editarIncidencia
      rw [hfind]
    rw [hred]
    refine ⟨?_, rfl⟩
    exact buscar_actualizar db.incidencias incID (fun i => { i with estado := e })
      (fun i => rfl) inc hfind

/-- Witness for the amended C5 at a concrete store: editing a resolved
incident to `pendiente` writes exactly that state and logs the actually
read prior state `resuelta`. -/
theorem estado_maquina_amended_witness :
    (editarIncidencia dbResuelta "I1" ⟨some .pendiente, none⟩ "a1").1
        = some ⟨"I1", .pendiente, some "w1"⟩
    ∧ (editarIncidencia dbResuelta "I1" ⟨some .pendiente, none⟩ "a1").2.historial
        = dbResuelta.historial ++ [⟨"I1", .resuelta, .pendiente, "a1"⟩] :=
  (estado_maquina_amended dbResuelta "I1" "a1").2.2 .pendiente ⟨"I1", .resuelta, some "w1"⟩ rfl

/-- Splitting at the first colon of `marca ++ ':' :: resto` recovers the
marker and the remainder whenever the marker itself is colon-free. -/
theorem splitPrimero_marca (m : List Char) (hm : ':' ∉ m) (l : List Char) :
    splitPrimero (m ++ ':' :: l) = some (m, l) := by
  induction m with
  | nil => simp [splitPrimero]
  | cons c resto ih =>
    have hc : ¬ c = ':' := fun h => hm (by simp [h])
    have hr : ':' ∉ resto := fun h => hm (List.mem_cons_of_mem _ h)
    simp [splitPrimero, hc, ih hr]

/-- String append acts as append on the underlying character lists. -/
theorem datos_append (s t : String) : (s ++ t).data = s.data ++ t.data := by
  cases s
  cases t
  rfl

/-- Rebuilding a string from its own character list is the identity. -/
theorem mk_datos (s : String) : String.mk s.data = s := by
  cases s
  rfl

/-- Left cancellation for string append. -/
theorem append_cancel_izq (s t u : String) (h : s ++ t = s ++ u) : t = u := by
  have hd : s.data ++ t.data = s.data ++ u.data := by
    have := congrArg String.data h
    rwa [datos_append, datos_append] at this
  have hdu : t.data = u.data := by
    exact List.append_cancel_left hd
  calc t = String.mk t.data := (mk_datos t).symm
    _ = String.mk u.data := by rw [hdu]
    _ = u := mk_datos u

/-- The handler's conflict parsing recovers exactly the detail that the
repository packed after the `incidencia_conflicto:` marker. -/
theorem splitPrimero_conflicto (detalle : String) :
    splitPrimero ("incidencia_conflicto:" ++ detalle).data
      = some ("incidencia_conflicto".data, detalle.data) := by
  have h1 : ("incidencia_conflicto:" ++ detalle).data
      = "incidencia_conflicto".data ++ ':' :: detalle.data := by
    rw [datos_append]
    rfl
  rw [h1]
  exact splitPrimero_marca _ (by decide) _

/-- Claim C7 as amended: every claim attempt ending in a conflict is
answered 409 with `codigo = 409` and error text
`Conflicto: ya fue tomada por <detalle>`, and a WebSocket envelope of
kind `incidencia_conflicto` whose `payload.incidencia_id` is the claimed
incident's id is published to the caller's user channel — but `<detalle>`
is the winner's display name only on the locked-row branch; on the
already-claimed-and-committed branch it is the text
`ya está en estado <estado>`, and it falls back to `otro usuario` or
`desconocido` when the assignee cannot be read. -/
theorem conflicto_respuesta_amended (db : DB) (incID uid eid detalle : String)
    (bloqueada : Bool)
    (h : (atenderConLock db incID uid bloqueada).1
        = .error ("incidencia_conflicto:" ++ detalle)) :
    (atenderHandler db incID uid eid bloqueada).1.status = 409
    ∧ (atenderHandler db incID uid eid bloqueada).1.cuerpoError
        = some ⟨"Conflicto: ya fue tomada por " ++ detalle, 409⟩
    ∧ (atenderHandler db incID uid eid bloqueada).2.1
        = [⟨"eventpulse:usuario:" ++ uid, "incidencia_conflicto", eid,
            .pConflicto ⟨incID, "La incidencia ya fue tomada por " ++ detalle, detalle⟩⟩]
    ∧ (∀ inc, buscarIncidencia db incID = some inc → bloqueada = false →
        inc.estado ≠ .pendiente → detalle = "ya está en estado " ++ estadoStr inc.estado)
    ∧ (∀ inc, buscarIncidencia db incID = some inc → bloqueada = true →
        detalle = nombreGanador db inc) := by
  rcases hA : atenderConLock db incID uid bloqueada with ⟨res, db2⟩
  rw [hA] at h
  simp only at h
  subst h
  have hHand : atenderHandler db incID uid eid bloqueada
      = manejarErrorAtender ("incidencia_conflicto:" ++ detalle) incID uid eid db2 := by
    unfold atenderHandler
    rw [hA]
  have hErr : manejarErrorAtender ("incidencia_conflicto:" ++ detalle) incID uid eid db2
      = (⟨409, some ⟨"Conflicto: ya fue tomada por " ++ detalle, 409⟩, none⟩,
         [⟨"eventpulse:usuario:" ++ uid, "incidencia_conflicto", eid,
            .pConflicto ⟨incID, "La incidencia ya fue tomada por " ++ detalle, detalle⟩⟩],
         db2) := by
    unfold manejarErrorAtender
    rw [splitPrimero_conflicto]
    simp [mk_datos]
  refine ⟨?_, ?_, ?_, ?_, ?_⟩
  · rw [hHand, hErr]
  · rw [hHand, hErr]
  · rw [hHand, hErr]
  · intro inc hfind hb hnp
    subst hb
    rw [claim_no_pendiente_conflicto db incID uid inc hfind hnp] at hA
    have := congrArg Prod.fst hA
    simp only at this
    have h2 : "incidencia_conflicto:" ++ ("ya está en estado " ++ estadoStr inc.estado)
        = "incidencia_conflicto:" ++ detalle := by
      have h3 := Except.error.inj this
      rw [← h3]
      rw [String.append_assoc]
    exact (append_cancel_izq _ _ _ h2).symm
  · intro inc hfind hb
    subst hb
    have hA2 : atenderConLock db incID uid true
        = (.error ("incidencia_conflicto:" ++ nombreGanador db inc), db) := by
      unfold atenderConLock
      rw [hfind]
      simp
    rw [hA2] at hA
    have := congrArg Prod.fst hA
    simp only at this
    have h2 : "incidencia_conflicto:" ++ nombreGanador db inc
        = "incidencia_conflicto:" ++ detalle :=
      Except.error.inj this
    exact (append_cancel_izq _ _ _ h2).symm

/-- Witness for the amended C7: the concrete already-claimed conflict. -/
theorem conflicto_respuesta_amended_witness :
    (atenderHandler dbClaimTarde "I1" "w2" "E1" false).1.status = 409
    ∧ (atenderHandler dbClaimTarde "I1" "w2" "E1" false).1.cuerpoError
        = some ⟨"Conflicto: ya fue tomada por " ++ "ya está en estado en_atencion", 409⟩
    ∧ (atenderHandler dbClaimTarde "I1" "w2" "E1" false).2.1
        = [⟨"eventpulse:usuario:" ++ "w2", "incidencia_conflicto", "E1",
            .pConflicto ⟨"I1",
              "La incidencia ya fue tomada por " ++ "ya está en estado en_atencion",
              "ya está en estado en_atencion"⟩⟩] := by
  have h := conflicto_respuesta_amended dbClaimTarde "I1" "w2" "E1"
    "ya está en estado en_atencion" false (by decide)
  exact ⟨h.1, h.2.1, h.2.2.1⟩

/-- Counterexample to claim C7 as stated: for the conflict produced by an
already-claimed-and-committed incident, the 409 body does not carry the
winner's display name (`Walter`) — it carries the state text instead. -/
theorem conflicto_cuerpo_contraejemplo :
    (atenderHandler dbClaimTarde "I1" "w2" "E1" false).1.status = 409
    ∧ buscarIncidencia dbClaimTarde "I1" = some ⟨"I1", .en_atencion, some "w1"⟩
    ∧ buscarUsuario dbClaimTarde "w1" = some ⟨"w1", "Walter"⟩
    ∧ (atenderHandler dbClaimTarde "I1" "w2" "E1" false).1.cuerpoError
        = some ⟨"Conflicto: ya fue tomada por ya está en estado en_atencion", 409⟩
    ∧ (atenderHandler dbClaimTarde "I1" "w2" "E1" false).1.cuerpoError
        ≠ some ⟨"Conflicto: ya fue tomada por Walter", 409⟩ := by
  decide

/-- Task states (`estado` CHECK constraint of table `tareas` in the
slug-keyed migration: `pendiente`, `en_progreso`, `completada`). -/
inductive EstadoTarea where
  | pendiente
  | en_progreso
  | completada
deriving DecidableEq, Repr

/-- A row of table `tareas`, restricted to the columns the task
operations read and write. -/
structure Tarea where
  id : String
  estado : EstadoTarea
  asignadaA : Option String
  completadaEn : Option Nat
deriving DecidableEq, Repr

/-- `TareaRepo.Crear`: `INSERT INTO tareas (...)` without `estado` or
`completada_en`, so the row starts with the column defaults
`estado = 'pendiente'` and `completada_en = NULL`. -/
def tareaCrear (id : String) (asignadaA : Option String) : Tarea :=
  ⟨id, .pendiente, asignadaA, none⟩

/-- `TareaRepository.Completar`: `UPDATE tareas SET estado = 'completada',
asignada_a = $1, completada_en = $2 WHERE id = $3 AND estado =
'pendiente'`; no row updated means the task was missing or already done. -/
def tareaCompletar (t : Tarea) (usuarioID : String) (ahora : Nat) : Except String Tarea :=
  if t.estado = .pendiente then
    .ok { t with estado := .completada, asignadaA := some usuarioID,
                 completadaEn := some ahora }
  else
    .error "tarea no encontrada o ya completada"

/-- The `BEFORE UPDATE` trigger `trg_tareas_completada` of the slug-keyed
migration: when an update moves a task into `completada` from another
state, it stamps `completada_en = NOW()`; it never clears the stamp. -/
def triggerCompletada (antes : Tarea) (despues : Tarea) (ahora : Nat) : Tarea :=
  if despues.estado = .completada ∧ antes.estado ≠ .completada then
    { despues with completadaEn := some ahora }
  else
    despues

/-- `TareaRepo.Editar`: optionally `UPDATE tareas SET estado = $1` and
optionally `UPDATE tareas SET asignada_a = $1`, each firing the
`trg_tareas_completada` trigger; no transition validation and no explicit
write to `completada_en`. -/
def tareaEditar (t : Tarea) (reqEstado : Option EstadoTarea)
    (reqAsignadaA : Option String) (ahora : Nat) : Tarea :=
  let t1 : Tarea :=
    match reqEstado with
    | some e => triggerCompletada t { t with estado := e } ahora
    | none => t
  match reqAsignadaA with
  | some a => triggerCompletada t1 { t1 with asignadaA := some a } ahora
  | none => t1

/-- Invariant 4 of the spec: `completada_en` is non-null exactly when the
task state is `completada`. -/
def invTarea (t : Tarea) : Prop := t.completadaEn ≠ none ↔ t.estado = .completada

instance (t : Tarea) : Decidable (invTarea t) := by
  unfold invTarea
  infer_instance

/-- Counterexample to claim C8: a completed task (satisfying the
invariant) edited back to `pendiente` keeps its completion stamp — the
trigger only sets `completada_en`, never clears it — so afterwards
`completada_en` is non-null while the state is not `completada`. -/
theorem tarea_editar_rompe_invariante :
    invTarea ⟨"T1", .completada, some "w1", some 5⟩
    ∧ tareaEditar ⟨"T1", .completada, some "w1", some 5⟩ (some .pendiente) none 9
        = ⟨"T1", .pendiente, some "w1", some 5⟩
    ∧ ¬ invTarea (tareaEditar ⟨"T1", .completada, some "w1", some 5⟩ (some .pendiente) none 9) := by
  refine ⟨by decide, by decide, by decide⟩

/-- The completion trigger keeps the invariant across a state update
whenever the update does not leave `completada`. -/
theorem trigger_estado_inv (t : Tarea) (e : EstadoTarea) (ahora : Nat)
    (hinv : invTarea t) (hsale : t.estado = .completada → e = .completada) :
    invTarea (triggerCompletada t { t with estado := e } ahora) := by
  unfold triggerCompletada
  by_cases hc : t.estado = .completada
  · have he : e = .completada := hsale hc
    subst he
    rw [if_neg (fun h => h.2 hc)]
    have hne : t.completadaEn ≠ none := hinv.mpr hc
    simp [invTarea, hne]
  · by_cases hec : e = .completada
    · subst hec
      rw [if_pos ⟨rfl, hc⟩]
      simp [invTarea]
    · rw [if_neg (fun h => hec (by simpa using h.1))]
      have h0 : t.completadaEn = none := by
        by_contra hne
        exact hc (hinv.mp hne)
      simp [invTarea, h0, hec]

/-- The completion trigger keeps the invariant across an assignee-only
update (the state does not change, so the trigger does not fire). -/
theorem trigger_asignada_inv (s : Tarea) (a : String) (ahora : Nat) (hs : invTarea s) :
    invTarea (triggerCompletada s { s with asignadaA := some a } ahora) := by
  unfold triggerCompletada
  rw [if_neg (fun h => h.2 h.1)]
  unfold invTarea at hs ⊢
  simpa using hs

/-- An edit that only touches the state keeps the invariant as long as it
does not move a completed task out of `completada`. -/
theorem editar_estado_inv (t : Tarea) (re : Option EstadoTarea) (ahora : Nat)
    (hinv : invTarea t)
    (hsale : t.estado = .completada → ∀ e, re = some e → e = .completada) :
    invTarea (tareaEditar t re none ahora) := by
  cases re with
  | none => exact hinv
  | some e => exact trigger_estado_inv t e ahora hinv (fun hc => hsale hc e rfl)

/-- Claim C8 as amended: the equivalence `completada_en ≠ NULL ↔ estado =
completada` holds after creation, is preserved by completion, and is
preserved by every edit except one that moves a completed task to a
non-completed state — there the stamp survives and the equivalence
breaks. -/
theorem tarea_invariante_amended :
    (∀ id a, invTarea (tareaCrear id a))
    ∧ (∀ t uid ahora t2, invTarea t → tareaCompletar t uid ahora = .ok t2 → invTarea t2)
    ∧ (∀ t re ra ahora, invTarea t →
        (t.estado = .completada → ∀ e, re = some e → e = .completada) →
        invTarea (tareaEditar t re ra ahora)) := by
  refine ⟨?_, ?_, ?_⟩
  · intro id a
    simp [tareaCrear, invTarea]
  · intro t uid ahora t2 hinv hok
    unfold tareaCompletar at hok
    by_cases hp : t.estado = .pendiente
    · rw [if_pos hp] at hok
      have ht2 := Except.ok.inj hok
      rw [← ht2]
      simp [invTarea]
    · rw [if_neg hp] at hok
      exact absurd hok (by simp)
  · intro t re ra ahora hinv hsale
    have hcore := editar_estado_inv t re ahora hinv hsale
    cases ra with
    | none => exact hcore
    | some a => exact trigger_asignada_inv (tareaEditar t re none ahora) a ahora hcore

/-- Witness for the amended C8: completing a fresh pending task keeps the
invariant, concretely. -/
theorem tarea_invariante_amended_witness :
    invTarea (tareaCrear "T1" none)
    ∧ invTarea (⟨"T1", .completada, some "w1", some 7⟩ : Tarea) := by
  have h1 := tarea_invariante_amended.1 "T1" none
  have h2 := tarea_invariante_amended.2.1 (tareaCrear "T1" none) "w1" 7
    ⟨"T1", .completada, some "w1", some 7⟩ h1 rfl
  exact ⟨h1, h2⟩

/-- A row of table `mensajes` (joined author columns omitted; the join on
`usuarios` never drops rows thanks to the FK on `usuario_id`). -/
structure Mensaje where
  id : String
  eventoID : String
  usuarioID : String
  contenido : String
  enviadoEn : Nat
deriving DecidableEq, Repr

/-- The query order `ORDER BY m.enviado_en DESC`. -/
def masReciente (a b : Mensaje) : Prop := b.enviadoEn ≤ a.enviadoEn

/-- The chronological order the endpoint promises. -/
def cronologico (a b : Mensaje) : Prop := a.enviadoEn ≤ b.enviadoEn

instance : DecidableRel masReciente := fun a b => Nat.decLe b.enviadoEn a.enviadoEn

instance : IsTotal Mensaje masReciente := ⟨fun a b => le_total b.enviadoEn a.enviadoEn⟩

instance : IsTrans Mensaje masReciente := ⟨fun _ _ _ hab hbc => le_trans hbc hab⟩

/-- `MensajeRepo.Listar`: `SELECT ... WHERE evento_id = $1 ORDER BY
enviado_en DESC LIMIT $2`, then the in-place Go loop that reverses the
slice into chronological order. -/
def mensajeListar (mensajes : List Mensaje) (eventoID : String) (limite : Nat) :
    List Mensaje :=
  (((mensajes.filter (fun m => m.eventoID == eventoID)).insertionSort masReciente).take
      limite).reverse

/-- `ChatHandler.Historial`: calls `Listar` with the fixed limit 50. -/
def historialHandler (mensajes : List Mensaje) (eventoID : String) : List Mensaje :=
  mensajeListar mensajes eventoID 50

/-- Claim C9: the chat history endpoint returns at most 50 messages — the
reversal of the limit-50 descending query, hence in chronological order —
and any message of the event left out is no newer than any message
returned. -/
theorem chat_historial_50 (mensajes : List Mensaje) (eventoID : String) :
    (historialHandler mensajes eventoID).length ≤ 50
    ∧ List.Sorted cronologico (historialHandler mensajes eventoID)
    ∧ historialHandler mensajes eventoID
        = (((mensajes.filter (fun m => m.eventoID == eventoID)).insertionSort
            masReciente).take 50).reverse
    ∧ (∀ m, m ∈ mensajes.filter (fun m2 => m2.eventoID == eventoID) →
        m ∉ historialHandler mensajes eventoID →
        ∀ m2, m2 ∈ historialHandler mensajes eventoID → m.enviadoEn ≤ m2.enviadoEn) := by
  have hs : List.Sorted masReciente
      ((mensajes.filter (fun m => m.eventoID == eventoID)).insertionSort masReciente) :=
    List.sorted_insertionSort masReciente _
  refine ⟨?_, ?_, rfl, ?_⟩
  · simp only [historialHandler, mensajeListar, List.length_reverse, List.length_take]
    exact Nat.min_le_left _ _
  · have htake : List.Pairwise masReciente
        (((mensajes.filter (fun m => m.eventoID == eventoID)).insertionSort
          masReciente).take 50) :=
      List.Pairwise.sublist (List.take_sublist _ _) hs
    unfold historialHandler mensajeListar
    exact List.pairwise_reverse.mpr (htake.imp (fun hab => hab))
  · intro m hm hnot m2 hm2
    have hperm := List.perm_insertionSort masReciente
      (mensajes.filter (fun m3 => m3.eventoID == eventoID))
    have hmem : m ∈ (mensajes.filter (fun m3 => m3.eventoID == eventoID)).insertionSort
        masReciente := hperm.mem_iff.mpr hm
    have hsplit := List.take_append_drop 50
      ((mensajes.filter (fun m3 => m3.eventoID == eventoID)).insertionSort masReciente)
    have hnot2 : m ∉ ((mensajes.filter (fun m3 => m3.eventoID == eventoID)).insertionSort
        masReciente).take 50 := by
      intro hc
      exact hnot (by simpa [historialHandler, mensajeListar] using hc)
    have hdrop : m ∈ ((mensajes.filter (fun m3 => m3.eventoID == eventoID)).insertionSort
        masReciente).drop 50 := by
      rcases (List.mem_append.mp (by rwa [hsplit])) with hL | hR
      · exact absurd hL hnot2
      · exact hR
    have hm2take : m2 ∈ ((mensajes.filter (fun m3 => m3.eventoID == eventoID)).insertionSort
        masReciente).take 50 := by
      simpa [historialHandler, mensajeListar] using hm2
    have hs2 : List.Pairwise masReciente
        ((((mensajes.filter (fun m3 => m3.eventoID == eventoID)).insertionSort
            masReciente).take 50)
          ++ (((mensajes.filter (fun m3 => m3.eventoID == eventoID)).insertionSort
            masReciente).drop 50)) := by
      rw [hsplit]
      exact hs
    have hsep := (List.pairwise_append.mp hs2).2.2
    exact hsep m2 hm2take m hdrop

/-- Fifty-one messages of event E1 with send times 0..50. -/
def msjsCrono : List Mensaje := (List.range 51).map (fun k => ⟨"m", "E1", "u", "x", k⟩)

/-- Witness for C9 on a 51-message store: the endpoint caps at 50, the
oldest message (time 0) is left out, and it is no newer than a returned
one (time 1). -/
theorem chat_historial_50_witness :
    (historialHandler msjsCrono "E1").length ≤ 50
    ∧ (⟨"m", "E1", "u", "x", 0⟩ : Mensaje) ∈ msjsCrono.filter (fun m2 => m2.eventoID == "E1")
    ∧ (⟨"m", "E1", "u", "x", 0⟩ : Mensaje) ∉ historialHandler msjsCrono "E1"
    ∧ (⟨"m", "E1", "u", "x", 0⟩ : Mensaje).enviadoEn
        ≤ (⟨"m", "E1", "u", "x", 1⟩ : Mensaje).enviadoEn := by
  refine ⟨(chat_historial_50 msjsCrono "E1").1, by decide, by decide, ?_⟩
  exact (chat_historial_50 msjsCrono "E1").2.2.2 ⟨"m", "E1", "u", "x", 0⟩ (by decide)
    (by decide) ⟨"m", "E1", "u", "x", 1⟩ (by decide)

/-- A row of table `usuarios` in the handle-login schema, with the
columns the auth handlers touch; `password` holds the stored bcrypt hash
(db tag `password_hash`). -/
structure UsuarioAuth where
  id : String
  nombreUsuario : String
  nombre : String
  password : String
  rol : Rol
  activo : Bool
deriving DecidableEq, Repr

/-- `UsuarioRepo.BuscarPorNombreUsuario`: `WHERE nombre_usuario = $1 AND
activo = true`. -/
def buscarPorNombreUsuario (usuarios : List UsuarioAuth) (nu : String) :
    Option UsuarioAuth :=
  usuarios.find? (fun u => u.nombreUsuario == nu && u.activo)

/-- `UsuarioRepo.BuscarPorID`: `WHERE id = $1`. -/
def buscarPorID (usuarios : List UsuarioAuth) (uid : String) : Option UsuarioAuth :=
  usuarios.find? (fun u => u.id == uid)

/-- `AuthHandler.Login`, parametric in the bcrypt comparison
(`ValidarPassword`) and the JWT signer (`GenerarToken`), both external
calls: look the user up by handle, check the password, mint a token,
blank the `Password` field (`usuario.Password = ""`), and answer 200 with
`{token, user}`; any failure answers 401 `Credenciales inválidas`. -/
def login (validar : String → String → Bool) (generarToken : UsuarioAuth → String)
    (usuarios : List UsuarioAuth) (nombreUsuario pass : String) :
    Except (Nat × String) (String × UsuarioAuth) :=
  match buscarPorNombreUsuario usuarios nombreUsuario with
  | none => .error (401, "Credenciales inválidas")
  | some u =>
    if validar u.password pass then
      .ok (generarToken u, { u with password := "" })
    else
      .error (401, "Credenciales inválidas")

/-- `AuthHandler.Me`: look the user up by the id from the token claims,
blank the `Password` field, answer 200; 404 when missing. -/
def me (usuarios : List UsuarioAuth) (uid : String) : Except (Nat × String) UsuarioAuth :=
  match buscarPorID usuarios uid with
  | some u => .ok { u with password := "" }
  | none => .error (404, "Usuario no encontrado")

/-- Claim C10: every successful login response and every `/auth/me`
response carries a user object whose password field is the empty string —
the stored hash is cleared before serialization. -/
theorem password_nunca_expuesto (validar : String → String → Bool)
    (generarToken : UsuarioAuth → String) (usuarios : List UsuarioAuth)
    (nombreUsuario pass uid tok : String) (u1 u2 : UsuarioAuth) :
    (login validar generarToken usuarios nombreUsuario pass = .ok (tok, u1) →
      u1.password = "")
    ∧ (me usuarios uid = .ok u2 → u2.password = "") := by
  constructor
  · intro hok
    unfold login at hok
    rcases hfind : buscarPorNombreUsuario usuarios nombreUsuario with _ | u
    · rw [hfind] at hok
      exact absurd hok (by simp)
    · rw [hfind] at hok
      have hok2 : (if validar u.password pass = true then
          (Except.ok (generarToken u, { u with password := "" })
            : Except (Nat × String) (String × UsuarioAuth))
        else .error (401, "Credenciales inválidas")) = .ok (tok, u1) := hok
      by_cases hv : validar u.password pass = true
      · rw [if_pos hv] at hok2
        have h2 := Except.ok.inj hok2
        have h3 : u1 = { u with password := "" } := (congrArg Prod.snd h2).symm
        rw [h3]
      · rw [if_neg hv] at hok2
        exact absurd hok2 (by simp)
  · intro hok
    unfold me at hok
    rcases hfind : buscarPorID usuarios uid with _ | u
    · rw [hfind] at hok
      exact absurd hok (by simp)
    · rw [hfind] at hok
      have hok2 : (Except.ok { u with password := "" }
          : Except (Nat × String) UsuarioAuth) = .ok u2 := hok
      have h3 : u2 = { u with password := "" } := (Except.ok.inj hok2).symm
      rw [h3]

/-- A concrete user table for the login witness. -/
def usuariosW : List UsuarioAuth :=
  [⟨"u1", "walter", "Walter", "hash-bcrypt", .aseo, true⟩]

/-- Witness for C10: a concrete successful login and `/auth/me` both
return the user with an empty password field. -/
theorem password_nunca_expuesto_witness :
    (⟨"u1", "walter", "Walter", "", .aseo, true⟩ : UsuarioAuth).password = ""
    ∧ login (fun h p => h == p) (fun _ => "tok") usuariosW "walter" "hash-bcrypt"
        = .ok ("tok", ⟨"u1", "walter", "Walter", "", .aseo, true⟩)
    ∧ me usuariosW "u1" = .ok ⟨"u1", "walter", "Walter", "", .aseo, true⟩ := by
  refine ⟨?_, by decide, by decide⟩
  exact (password_nunca_expuesto (fun h p => h == p) (fun _ => "tok") usuariosW
    "walter" "hash-bcrypt" "u1" "tok" ⟨"u1", "walter", "Walter", "", .aseo, true⟩
    ⟨"u1", "walter", "Walter", "", .aseo, true⟩).1 (by decide)

/-- A connected socket as the hub sees it: its bounded outbound queue
(`send`, a buffered channel of capacity `cap` — 256 in `hub.go`, 512 in
the other variant), plus the closed flag set when the hub evicts it. -/
structure Cliente where
  usuarioID : String
  eventoID : String
  send : List String
  cap : Nat
  cerrado : Bool
deriving DecidableEq, Repr

/-- `Hub.distribuir` / `Hub.distribuirMensaje`: walk the per-event client
set; a non-blocking enqueue (`select ... default`) appends the frame when
the buffer has room, otherwise the client is slow — its queue is closed
and it is deleted from the registry.  Returns the surviving registry
entry and the evicted clients. -/
def distribuir : List Cliente → String → List Cliente × List Cliente
  | [], _ => ([], [])
  | c :: resto, data =>
    let prev := distribuir resto data
    if c.send.length < c.cap then
      ({ c with send := c.send ++ [data] } :: prev.1, prev.2)
    else
      (prev.1, { c with cerrado := true } :: prev.2)

/-- Claim C6: each socket registered for the event at fan-out time either
gets the frame enqueued exactly once (its queue becomes its old queue
plus one copy of the frame) or, its queue being full, is closed and
removed from the registry; the two outcomes partition the registry, so no
socket receives the frame twice and delivery to the remaining sockets
still happens. -/
theorem fanout_una_vez (clientes : List Cliente) (data : String) :
    (distribuir clientes data).1
        = (clientes.filter (fun c => decide (c.send.length < c.cap))).map
            (fun c => { c with send := c.send ++ [data] })
    ∧ (distribuir clientes data).2
        = (clientes.filter (fun c => ! decide (c.send.length < c.cap))).map
            (fun c => { c with cerrado := true })
    ∧ (∀ c, c ∈ clientes → c.send.length < c.cap →
        ({ c with send := c.send ++ [data] } : Cliente) ∈ (distribuir clientes data).1)
    ∧ (∀ c, c ∈ clientes → ¬ c.send.length < c.cap →
        ({ c with cerrado := true } : Cliente) ∈ (distribuir clientes data).2) := by
  have hmain : (distribuir clientes data).1
        = (clientes.filter (fun c => decide (c.send.length < c.cap))).map
            (fun c => { c with send := c.send ++ [data] })
      ∧ (distribuir clientes data).2
        = (clientes.filter (fun c => ! decide (c.send.length < c.cap))).map
            (fun c => { c with cerrado := true }) := by
    induction clientes with
    | nil => exact ⟨rfl, rfl⟩
    | cons c resto ih =>
      by_cases hc : c.send.length < c.cap
      · constructor
        · show (if c.send.length < c.cap then _ else _ : List Cliente × List Cliente).1 = _
          rw [if_pos hc]
          simp only [List.filter_cons, decide_eq_true hc, List.map_cons]
          exact congrArg _ ih.1
        · show (if c.send.length < c.cap then _ else _ : List Cliente × List Cliente).2 = _
          rw [if_pos hc]
          simp only [List.filter_cons, decide_eq_true hc, Bool.not_true]
          exact ih.2
      · constructor
        · show (if c.send.length < c.cap then _ else _ : List Cliente × List Cliente).1 = _
          rw [if_neg hc]
          simp only [List.filter_cons, decide_eq_false hc]
          exact ih.1
        · show (if c.send.length < c.cap then _ else _ : List Cliente × List Cliente).2 = _
          rw [if_neg hc]
          simp only [List.filter_cons, decide_eq_false hc, Bool.not_false, List.map_cons]
          exact congrArg _ ih.2
  refine ⟨hmain.1, hmain.2, ?_, ?_⟩
  · intro c hmem hc
    rw [hmain.1]
    exact List.mem_map_of_mem _ (List.mem_filter.mpr ⟨hmem, by simpa using hc⟩)
  · intro c hmem hc
    rw [hmain.2]
    exact List.mem_map_of_mem _ (List.mem_filter.mpr ⟨hmem, by simpa using hc⟩)

/-- A two-client registry: one with room, one with a full queue. -/
def clientesW : List Cliente :=
  [⟨"u1", "E1", [], 2, false⟩, ⟨"u2", "E1", ["a", "b"], 2, false⟩]

/-- Witness for C6: on the concrete registry the roomy client gets the
frame appended once and the full one is closed and evicted. -/
theorem fanout_una_vez_witness :
    (⟨"u1", "E1", ["x"], 2, false⟩ : Cliente) ∈ (distribuir clientesW "x").1
    ∧ (⟨"u2", "E1", ["a", "b"], 2, true⟩ : Cliente) ∈ (distribuir clientesW "x").2 := by
  constructor
  · exact (fanout_una_vez clientesW "x").2.2.1 ⟨"u1", "E1", [], 2, false⟩ (by decide)
      (by decide)
  · exact (fanout_una_vez clientesW "x").2.2.2 ⟨"u2", "E1", ["a", "b"], 2, false⟩ (by decide)
      (by decide)

/-- Outcome of one claim attempt: HTTP 200 with the incident, or the
typed `incidencia_conflicto` result. -/
inductive Resultado where
  | exito
  | conflicto
deriving DecidableEq, Repr

/-- State of the system while `n` concurrent claim attempts (one database
transaction each, attempt `i` run by user `i`) race on one incident row:
the committed row (`estado`, `atendidaPor`), the append-only history, the
row lock taken by `SELECT ... FOR UPDATE` (`lock` is the attempt holding
it), and each attempt's outcome (`none` while still running). -/
structure Sis (n : Nat) where
  estado : EstadoIncidencia
  atendidaPor : Option (Fin n)
  lock : Option (Fin n)
  historial : List (EstadoIncidencia × EstadoIncidencia × Fin n)
  resultado : Fin n → Option Resultado

/-- Record attempt `i`'s outcome. -/
def ponResultado {n : Nat} (f : Fin n → Option Resultado) (i : Fin n) (r : Resultado) :
    Fin n → Option Resultado := fun j => if j = i then some r else f j

theorem ponResultado_mismo {n : Nat} (f : Fin n → Option Resultado) (i : Fin n)
    (r : Resultado) : ponResultado f i r i = some r := by
  simp [ponResultado]

theorem ponResultado_otro {n : Nat} (f : Fin n → Option Resultado) (i j : Fin n)
    (r : Resultado) (h : j ≠ i) : ponResultado f i r j = f j := by
  simp [ponResultado, h]

/-- One interleaving step of the claim protocol (`AtenderConLock`), with
PostgreSQL `SELECT ... FOR UPDATE SKIP LOCKED` semantics:
* `selectLibre` — the locking read finds the row unlocked and takes the
  exclusive row lock (whatever the committed state is);
* `commitExito` — the lock holder sees `pendiente`, updates state and
  assignee, appends the history row, commits, releasing the lock;
* `rollbackNoPendiente` — the lock holder sees a non-pending state and
  fails with the already-in-state conflict, rolling back;
* `selectBloqueado` — the locking read skips the row locked by another
  in-flight transaction and the attempt fails with the who-won conflict
  read without a lock. -/
def conLock {n : Nat} (s : Sis n) (i : Fin n) : Sis n := { s with lock := some i }

def commitDst {n : Nat} (s : Sis n) (i : Fin n) : Sis n :=
  { s with
      estado := .en_atencion,
      atendidaPor := some i,
      lock := none,
      historial := s.historial
        ++ [(EstadoIncidencia.pendiente, EstadoIncidencia.en_atencion, i)],
      resultado := ponResultado s.resultado i .exito }

def rollbackDst {n : Nat} (s : Sis n) (i : Fin n) : Sis n :=
  { s with lock := none, resultado := ponResultado s.resultado i .conflicto }

def bloqueadoDst {n : Nat} (s : Sis n) (i : Fin n) : Sis n :=
  { s with resultado := ponResultado s.resultado i .conflicto }

inductive Paso {n : Nat} : Sis n → Sis n → Prop where
  | selectLibre (s : Sis n) (i : Fin n) (hr : s.resultado i = none) (hl : s.lock = none) :
      Paso s (conLock s i)
  | commitExito (s : Sis n) (i : Fin n) (hl : s.lock = some i)
      (hp : s.estado = .pendiente) :
      Paso s (commitDst s i)
  | rollbackNoPendiente (s : Sis n) (i : Fin n) (hl : s.lock = some i)
      (hp : s.estado ≠ .pendiente) :
      Paso s (rollbackDst s i)
  | selectBloqueado (s : Sis n) (i j : Fin n) (hr : s.resultado i = none)
      (hl : s.lock = some j) (hij : i ≠ j) :
      Paso s (bloqueadoDst s i)

/-- The initial state: the incident is pending, unassigned and unlocked,
no history, no attempt finished. -/
def inicial (n : Nat) : Sis n := ⟨.pendiente, none, none, [], fun _ => none⟩

/-- The protocol invariant: the lock holder has not finished; and either
the row is still pending — then nobody has succeeded, and if any attempt
has finished at all the lock is held (a conflict in the pending phase is
only ever produced against an in-flight holder) — or the row is
`en_atencion` with exactly one successful attempt, which is the recorded
assignee. -/
def Inv {n : Nat} (s : Sis n) : Prop :=
  (∀ i, s.lock = some i → s.resultado i = none)
  ∧ ((s.estado = .pendiente
        ∧ (∀ i, s.resultado i ≠ some .exito)
        ∧ ((∀ i, s.resultado i = none) ∨ s.lock ≠ none))
     ∨ (s.estado = .en_atencion
        ∧ ∃ i, s.resultado i = some .exito ∧ s.atendidaPor = some i
            ∧ ∀ j, j ≠ i → s.resultado j ≠ some .exito))

theorem inv_inicial (n : Nat) : Inv (inicial n) := by
  constructor
  · intro i h
    exact absurd h (by simp [inicial])
  · left
    refine ⟨rfl, ?_, Or.inl ?_⟩
    · intro i
      simp [inicial]
    · intro i
      rfl

theorem inv_paso {n : Nat} {s t : Sis n} (hp : Paso s t) (hinv : Inv s) : Inv t := by
  obtain ⟨hlock, hfase⟩ := hinv
  cases hp with
  | selectLibre i hr hl =>
    constructor
    · intro j hj
      have hji : j = i := by simpa [conLock] using hj.symm
      subst hji
      exact hr
    · rcases hfase with ⟨hpend, hnoex, _⟩ | ⟨hat, w, hw⟩
      · exact Or.inl ⟨hpend, hnoex, Or.inr (by simp [conLock])⟩
      · exact Or.inr ⟨hat, w, hw⟩
  | commitExito i hl hpe =>
    constructor
    · intro j hj
      exact absurd hj (by simp [commitDst])
    · right
      refine ⟨rfl, i, ?_, rfl, ?_⟩
      · exact ponResultado_mismo s.resultado i .exito
      · intro j hji
        have hres : (commitDst s i).resultado j = s.resultado j :=
          ponResultado_otro s.resultado i j .exito hji
        rw [hres]
        rcases hfase with ⟨_, hnoex, _⟩ | ⟨hat, _⟩
        · exact hnoex j
        · exact absurd (hat.symm.trans hpe) (by decide)
  | rollbackNoPendiente i hl hnp =>
    constructor
    · intro j hj
      exact absurd hj (by simp [rollbackDst])
    · rcases hfase with ⟨hpend, _, _⟩ | ⟨hat, w, hwex, hwat, hwuniq⟩
      · exact absurd hpend hnp
      · right
        have hwi : w ≠ i := by
          intro h
          subst h
          rw [hlock w hl] at hwex
          exact absurd hwex (by simp)
        refine ⟨hat, w, ?_, hwat, ?_⟩
        · have hres : (rollbackDst s i).resultado w = s.resultado w :=
            ponResultado_otro s.resultado i w .conflicto hwi
          rw [hres]
          exact hwex
        · intro j hjw
          by_cases hji : j = i
          · subst hji
            have hres : (rollbackDst s j).resultado j = some .conflicto :=
              ponResultado_mismo s.resultado j .conflicto
            rw [hres]
            simp
          · have hres : (rollbackDst s i).resultado j = s.resultado j :=
              ponResultado_otro s.resultado i j .conflicto hji
            rw [hres]
            exact hwuniq j hjw
  | selectBloqueado i j hr hl hij =>
    constructor
    · intro k hk
      have hkj : k = j := by
        have hk2 : s.lock = some k := hk
        rw [hl] at hk2
        exact (Option.some.inj hk2).symm
      subst hkj
      have hki : k ≠ i := fun h => hij (by rw [h])
      have hres : (bloqueadoDst s i).resultado k = s.resultado k :=
        ponResultado_otro s.resultado i k .conflicto hki
      rw [hres]
      exact hlock k hl
    · rcases hfase with ⟨hpend, hnoex, _⟩ | ⟨hat, w, hwex, hwat, hwuniq⟩
      · left
        refine ⟨hpend, ?_, Or.inr (by simp [bloqueadoDst, hl])⟩
        intro k
        by_cases hki : k = i
        · subst hki
          have hres : (bloqueadoDst s k).resultado k = some .conflicto :=
            ponResultado_mismo s.resultado k .conflicto
          rw [hres]
          simp
        · have hres : (bloqueadoDst s i).resultado k = s.resultado k :=
            ponResultado_otro s.resultado i k .conflicto hki
          rw [hres]
          exact hnoex k
      · right
        have hwi : w ≠ i := by
          intro h
          subst h
          rw [hr] at hwex
          exact absurd hwex (by simp)
        refine ⟨hat, w, ?_, hwat, ?_⟩
        · have hres : (bloqueadoDst s i).resultado w = s.resultado w :=
            ponResultado_otro s.resultado i w .conflicto hwi
          rw [hres]
          exact hwex
        · intro k hkw
          by_cases hki : k = i
          · subst hki
            have hres : (bloqueadoDst s k).resultado k = some .conflicto :=
              ponResultado_mismo s.resultado k .conflicto
            rw [hres]
            simp
          · have hres : (bloqueadoDst s i).resultado k = s.resultado k :=
              ponResultado_otro s.resultado i k .conflicto hki
            rw [hres]
            exact hwuniq k hkw

theorem inv_reach {n : Nat} {s : Sis n}
    (h : Relation.ReflTransGen Paso (inicial n) s) : Inv s := by
  induction h with
  | refl => exact inv_inicial n
  | tail hab hbc ih => exact inv_paso hbc ih

/-- Claim C1: starting from a pending incident, in every interleaving of
the `n` concurrent claim attempts in which all attempts have finished,
exactly one attempt succeeded — the incident is `en_atencion` with that
attempt's user as assignee — and every other attempt came back with a
claim conflict. -/
theorem claim_exactamente_uno {n : Nat} (s : Sis n)
    (hreach : Relation.ReflTransGen Paso (inicial n) s)
    (hfin : ∀ i, s.resultado i ≠ none) (hn : 0 < n) :
    s.estado = .en_atencion
    ∧ ∃ i, s.resultado i = some .exito
        ∧ s.atendidaPor = some i
        ∧ ∀ j, j ≠ i → s.resultado j = some .conflicto := by
  obtain ⟨hlock, hfase⟩ := inv_reach hreach
  rcases hfase with ⟨hpend, hnoex, hall⟩ | ⟨hat, w, hwex, hwat, hwuniq⟩
  · exfalso
    rcases hall with hnone | hlockne
    · exact hfin ⟨0, hn⟩ (hnone ⟨0, hn⟩)
    · rcases hlk : s.lock with _ | j
      · exact hlockne hlk
      · exact hfin j (hlock j hlk)
  · refine ⟨hat, w, hwex, hwat, ?_⟩
    intro j hjw
    rcases hres : s.resultado j with _ | r
    · exact absurd hres (hfin j)
    · cases r with
      | exito => exact absurd hres (hwuniq j hjw)
      | conflicto => rfl

/-- Trace states for the witness: attempt 0 locks and commits; attempt 1
then locks the row, sees `en_atencion` and rolls back with a conflict. -/
def sisW1 : Sis 2 := conLock (inicial 2) 0

def sisW2 : Sis 2 := commitDst sisW1 0

def sisW3 : Sis 2 := conLock sisW2 1

def sisW4 : Sis 2 := rollbackDst sisW3 1

/-- Witness for C1: a complete concrete two-attempt interleaving in which
attempt 0 wins and attempt 1 gets the conflict. -/
theorem claim_exactamente_uno_witness :
    sisW4.estado = .en_atencion
    ∧ ∃ i : Fin 2, sisW4.resultado i = some .exito
        ∧ sisW4.atendidaPor = some i
        ∧ ∀ j, j ≠ i → sisW4.resultado j = some .conflicto := by
  have h1 : Paso (inicial 2) sisW1 := Paso.selectLibre (inicial 2) 0 rfl rfl
  have h2 : Paso sisW1 sisW2 := Paso.commitExito sisW1 0 rfl rfl
  have h3 : Paso sisW2 sisW3 := Paso.selectLibre sisW2 1 (by decide) rfl
  have h4 : Paso sisW3 sisW4 := Paso.rollbackNoPendiente sisW3 1 rfl (by decide)
  have hreach : Relation.ReflTransGen Paso (inicial 2) sisW4 :=
    Relation.ReflTransGen.tail
      (Relation.ReflTransGen.tail (Relation.ReflTransGen.tail
        (Relation.ReflTransGen.single h1) h2) h3) h4
  exact claim_exactamente_uno sisW4 hreach (by decide) (by decide)

end EventPulse
